import Mathlib

/-!
Shallow embedding of the nodeboard pipeline (src/app.py): spreadsheet-row
cleaning, the left merge on IP address, the per-node distinct-alarm-time
aggregation, the latest-file locator and the dashboard filter callback.

Spreadsheet cells are modelled as `Option` values: `none` stands for a
missing cell (pandas NaN).  The datetime parser behind
`pd.to_datetime(_, errors=coerce)` and the numeric parser behind
`pd.to_numeric(_, errors=coerce)` are abstracted as parameters
`parse : String → Option Nat` and `toNum : String → Option Int`;
a `none` result stands for a coercion failure (NaT/NaN), which the code
then drops via `dropna`.
-/

namespace Nodeboard

/-- A data row of the alarm-log spreadsheet after `read_excel(skiprows=5)`
and the column renaming of `data1_clean` (src/app.py lines 50-59): the
retained columns are IP Address, Node Alias, Event and the raw Alarm Time
string.  The dropped columns (Sl.no, Clear Time, Duration, Description,
Host Name) are not represented. -/
structure RawAlarmRow where
  ipAddress : Option String
  nodeAlias : Option String
  event : Option String
  alarmTime : Option String
deriving DecidableEq

/-- A row surviving `data1_clean`: Node Alias present and Alarm Time
parsed into a timestamp (modelled as `Nat`). -/
structure CleanedAlarmRecord where
  ipAddress : Option String
  nodeAlias : String
  event : Option String
  alarmTime : Nat
deriving DecidableEq

/-- Row-wise content of `data1_clean` (src/app.py lines 60-62):
`dropna(subset=[Node Alias, Alarm Time])`, then
`to_datetime(errors=coerce)`, then `dropna(subset=[Alarm Time])`.
A row survives iff Node Alias is present, Alarm Time is present, and the
Alarm Time string parses. -/
def clean1Row (parse : String → Option Nat) (r : RawAlarmRow) :
    Option CleanedAlarmRecord :=
  match r.nodeAlias, r.alarmTime with
  | some na, some ts =>
      match parse ts with
      | some t => some ⟨r.ipAddress, na, r.event, t⟩
      | none => none
  | _, _ => none

/-- `data1_clean` (src/app.py lines 49-63) on the data rows of the file:
row-wise cleaning, keeping surviving rows in source order. -/
def data1_clean (parse : String → Option Nat) (rows : List RawAlarmRow) :
    List CleanedAlarmRecord :=
  rows.filterMap (clean1Row parse)

/-- A data row of the availability spreadsheet after `read_excel` and the
renaming of `data2_clean` (src/app.py lines 67-78): Node Alias, IP
Address, and the three raw metric cells.  The dropped columns
(Unnamed 2 and 3) are not represented. -/
structure RawAvailRow where
  nodeAlias : Option String
  ipAddress : Option String
  availability : Option String
  latency : Option String
  packetLoss : Option String
deriving DecidableEq

/-- A row surviving `data2_clean`: all three metrics coerced to numbers. -/
structure CleanedAvailabilityRecord where
  nodeAlias : Option String
  ipAddress : Option String
  availability : Int
  latencyMs : Int
  packetLossPct : Int
deriving DecidableEq

/-- Row-wise content of `data2_clean` (src/app.py lines 80-83):
`to_numeric(errors=coerce)` on Packet Loss, Availability and Latency,
then `dropna` on the three.  A missing cell coerces to NaN, so a row
survives iff all three cells are present and parse numerically. -/
def clean2Row (toNum : String → Option Int) (r : RawAvailRow) :
    Option CleanedAvailabilityRecord :=
  match r.packetLoss.bind toNum, r.availability.bind toNum,
        r.latency.bind toNum with
  | some p, some a, some l => some ⟨r.nodeAlias, r.ipAddress, a, l, p⟩
  | _, _, _ => none

/-- `data2_clean` (src/app.py lines 66-84) on the data rows of the file:
`df.drop([0,1,2,3,4])` removes the five leading non-data rows, then the
row-wise cleaning keeps surviving rows in source order. -/
def data2_clean (toNum : String → Option Int) (rows : List RawAvailRow) :
    List CleanedAvailabilityRecord :=
  (rows.drop 5).filterMap (clean2Row toNum)

/-- A row of `merged_df` (src/app.py line 91): a cleaned alarm record
with the Availability value attached by the merge, `none` when the IP
address has no counterpart in the availability data. -/
structure JoinedRecord where
  alarm : CleanedAlarmRecord
  availability : Option Int
deriving DecidableEq

/-- The output rows a single alarm record contributes to the left
merge: one row per availability row with an equal IP Address (pandas
fan-out, in right-side order), or a single row with no availability
when no IP Address matches. -/
def joinOne (a : CleanedAlarmRecord)
    (avail : List CleanedAvailabilityRecord) : List JoinedRecord :=
  match avail.filter (fun v => v.ipAddress == a.ipAddress) with
  | [] => [⟨a, none⟩]
  | ms => ms.map fun v => ⟨a, some v.availability⟩

/-- `pd.merge(df1_cleaned, df2_cleaned[[IP Address, Availability]],
on=IP Address, how=left)` (src/app.py line 91).  Every left row is kept;
a left row with matching right rows yields one output row per match (in
right order); a left row with no match yields a single row with no
availability.  Left row order is preserved. -/
def merged_df (alarms : List CleanedAlarmRecord)
    (avail : List CleanedAvailabilityRecord) : List JoinedRecord :=
  match alarms with
  | [] => []
  | a :: as => joinOne a avail ++ merged_df as avail

/-- A row of the `downtime_count` summary table (src/app.py lines 94-98). -/
structure DowntimeSummary where
  nodeAlias : String
  downtimeCount : Nat
deriving DecidableEq

/-- The Alarm Time values of the joined rows whose Node Alias is `k`. -/
def groupTimes (merged : List JoinedRecord) (k : String) : List Nat :=
  (merged.filter fun j => j.alarm.nodeAlias == k).map fun j =>
    j.alarm.alarmTime

/-- `merged_df.groupby(Node Alias)[Alarm Time].nunique().reset_index(
name=Downtime Count)` (src/app.py lines 94-98): one row per distinct
Node Alias, in the sorted key order pandas groupby produces, counting
the distinct Alarm Time values of the group. -/
def downtime_count (merged : List JoinedRecord) : List DowntimeSummary :=
  (((merged.map fun j => j.alarm.nodeAlias).dedup).insertionSort
      (· ≤ ·)).map fun k => ⟨k, (groupTimes merged k).dedup.length⟩

/-- A directory entry seen by `get_latest_file`: a file name and its
creation time (`os.path.getctime`). -/
structure DirEntry where
  name : String
  ctime : Nat
deriving DecidableEq

/-- Python `max(files, key=ctime)`: the first entry attaining the
maximal creation time (Python max keeps the earlier element on ties). -/
def maxByCtime (m : DirEntry) (ms : List DirEntry) : DirEntry :=
  ms.foldl (fun best f => if best.ctime < f.ctime then f else best) m

/-- `get_latest_file` (src/app.py lines 30-39).  `rmatch` abstracts
`re.match(pattern, name)` as a predicate on file names (a match anchored
at the start of the name); `files` is the `os.listdir` result with each
name paired with its creation time.  Returns the joined path of the
most recently created matching file, or a FileNotFoundError when no
name matches. -/
def get_latest_file (downloads_path : String) (rmatch : String → Bool)
    (files : List DirEntry) : Except String String :=
  match files.filter (fun f => rmatch f.name) with
  | [] => .error "No files matching the pattern were found."
  | m :: ms => .ok (downloads_path ++ "/" ++ (maxByCtime m ms).name)

/-- The column labels of the `downtime_count` frame: `groupby(Node
Alias)[Alarm Time].nunique().reset_index(name=Downtime Count)` yields
exactly the group key and the count column. -/
def summaryColumns : List String := ["Node Alias", "Downtime Count"]

/-- A cell value of the summary frame. -/
inductive CellVal where
  | str : String → CellVal
  | nat : Nat → CellVal
deriving DecidableEq

/-- Column access on a summary row: `some` for the two existing columns,
`none` for any other label. -/
def getCol (row : DowntimeSummary) (c : String) : Option CellVal :=
  if c = "Node Alias" then some (.str row.nodeAlias)
  else if c = "Downtime Count" then some (.nat row.downtimeCount)
  else none

/-- Whether an Alarm Time cell lies in the requested date range. -/
def inRange (v : Option CellVal) (sd ed : Nat) : Bool :=
  match v with
  | some (.nat t) => sd ≤ t && t ≤ ed
  | _ => false

/-- The date-range step of `filter_data` (src/app.py lines 268-272):
`filtered_df[(filtered_df[Alarm Time] >= start) & (filtered_df[Alarm
Time] <= end)]`.  Selecting a column raises a pandas KeyError when the
label is absent from the frame schema, which is the case here: the
summary frame has only the columns in `summaryColumns`. -/
def dateFilter (sd ed : Nat) (l : List DowntimeSummary) :
    Except String (List DowntimeSummary) :=
  if "Alarm Time" ∈ summaryColumns then
    .ok (l.filter fun r => inRange (getCol r "Alarm Time") sd ed)
  else
    .error "KeyError: Alarm Time"

/-- The downtime-bucket step of `filter_data` (src/app.py lines
256-265): the four recognized bucket strings select by the count, any
other value leaves the frame untouched. -/
def bucketFilter (v : String) (l : List DowntimeSummary) :
    List DowntimeSummary :=
  if v = "1-3" then l.filter fun s => s.downtimeCount ≤ 3
  else if v = "4-5" then
    l.filter fun s => 3 < s.downtimeCount && s.downtimeCount ≤ 5
  else if v = ">5" then l.filter fun s => 5 < s.downtimeCount
  else if v = ">10" then l.filter fun s => 10 < s.downtimeCount
  else l

/-- The `filter_data` callback (src/app.py lines 253-273), with the
module-level `downtime_count` table passed as `table`.  With no click
count the full table is returned; otherwise the bucket step runs, and
the date step runs only when both dates are provided (Python
`if start_date and end_date`). -/
def filter_data (n_clicks : Option Nat) (start_date end_date : Option Nat)
    (downtime_value : String) (table : List DowntimeSummary) :
    Except String (List DowntimeSummary) :=
  match n_clicks with
  | none => .ok table
  | some _ =>
    let filtered := bucketFilter downtime_value table
    match start_date, end_date with
    | some sd, some ed => dateFilter sd ed filtered
    | _, _ => .ok filtered

/-- The module state visible to the callback: the aggregated table
computed once at startup. -/
structure AppState where
  downtime_count : List DowntimeSummary
deriving DecidableEq

/-- `filter_data` run against the module state: the callback only reads
the shared table (pandas boolean-mask selection returns a new frame and
every assignment in the body rebinds the local `filtered_df`), so the
state after the call is returned alongside the result view. -/
def filter_data_app (st : AppState) (n_clicks : Option Nat)
    (start_date end_date : Option Nat) (downtime_value : String) :
    Except String (List DowntimeSummary) × AppState :=
  match n_clicks with
  | none => (.ok st.downtime_count, st)
  | some _ =>
    let filtered_df := st.downtime_count
    let filtered_df := bucketFilter downtime_value filtered_df
    match start_date, end_date with
    | some sd, some ed => (dateFilter sd ed filtered_df, st)
    | _, _ => (.ok filtered_df, st)

/-- Residual-row processing of `data2_clean`: row-wise cleaning of the
rows that remain after the five leading non-data rows are dropped. -/
def clean2Rows (toNum : String → Option Int) (trimmed : List RawAvailRow) :
    List CleanedAvailabilityRecord :=
  trimmed.filterMap (clean2Row toNum)

/-! ## Theorems -/

/-- C5: every record produced by the alarm cleaner comes from an input
row whose Node Alias is present and whose Alarm Time string parses
(their values are carried over); a row missing Node Alias or Alarm
Time, or whose Alarm Time fails to parse, contributes nothing; output
membership is exactly row-wise survival; and cleaning is compositional
left to right, so the residual source order is preserved.  The cleaner
is a total function, so no exception escapes on malformed rows. -/
theorem alarm_cleaner_spec (parse : String → Option Nat)
    (rows : List RawAlarmRow) :
    (∀ r c, clean1Row parse r = some c →
      r.nodeAlias = some c.nodeAlias ∧
      ∃ ts, r.alarmTime = some ts ∧ parse ts = some c.alarmTime) ∧
    (∀ r, (r.nodeAlias = none ∨ r.alarmTime = none ∨
        (∃ ts, r.alarmTime = some ts ∧ parse ts = none)) →
      clean1Row parse r = none) ∧
    (∀ c, c ∈ data1_clean parse rows ↔
      ∃ r ∈ rows, clean1Row parse r = some c) ∧
    (∀ xs ys : List RawAlarmRow,
      data1_clean parse (xs ++ ys) =
        data1_clean parse xs ++ data1_clean parse ys) := by
  refine ⟨?_, ?_, ?_, ?_⟩
  · intro r c h
    cases hna : r.nodeAlias with
    | none => simp [clean1Row, hna] at h
    | some na =>
      cases hat : r.alarmTime with
      | none => simp [clean1Row, hna, hat] at h
      | some ts =>
        cases hp : parse ts with
        | none => simp [clean1Row, hna, hat, hp] at h
        | some t =>
          simp only [clean1Row, hna, hat, hp, Option.some.injEq] at h
          subst h
          exact ⟨rfl, ts, rfl, hp⟩
  · intro r h
    rcases h with h | h | ⟨ts, hts, hp⟩
    · simp [clean1Row, h]
    · cases hna : r.nodeAlias <;> simp [clean1Row, hna, h]
    · cases hna : r.nodeAlias <;> simp [clean1Row, hna, hts, hp]
  · intro c
    simp [data1_clean, List.mem_filterMap]
  · intro xs ys
    simp [data1_clean, List.filterMap_append]

/-- Witness for C5: a concrete row with a missing Node Alias is dropped
by the cleaner. -/
theorem alarm_cleaner_spec_witness :
    clean1Row (fun ts => if ts = "t1" then some 1 else none)
      ⟨some "10.0.0.1", none, none, some "t1"⟩ = none :=
  (alarm_cleaner_spec (fun ts => if ts = "t1" then some 1 else none)
    []).2.1 ⟨some "10.0.0.1", none, none, some "t1"⟩ (Or.inl rfl)

/-- C6: every record produced by the availability cleaner comes from a
residual input row whose three metric cells all coerce to numbers
(their values are carried over); a row on which any of the three
coercions fails contributes nothing; output membership is exactly
row-wise survival over the rows after the first five; the five leading
rows are dropped no matter their content; and residual cleaning is
compositional left to right, so residual order is preserved. -/
theorem availability_cleaner_spec (toNum : String → Option Int)
    (rows : List RawAvailRow) :
    (∀ r c, clean2Row toNum r = some c →
      r.nodeAlias = c.nodeAlias ∧ r.ipAddress = c.ipAddress ∧
      r.availability.bind toNum = some c.availability ∧
      r.latency.bind toNum = some c.latencyMs ∧
      r.packetLoss.bind toNum = some c.packetLossPct) ∧
    (∀ r, (r.availability.bind toNum = none ∨
        r.latency.bind toNum = none ∨ r.packetLoss.bind toNum = none) →
      clean2Row toNum r = none) ∧
    (∀ c, c ∈ data2_clean toNum rows ↔
      ∃ r ∈ rows.drop 5, clean2Row toNum r = some c) ∧
    (∀ five rest, List.length five = 5 →
      data2_clean toNum (five ++ rest) = clean2Rows toNum rest) ∧
    (∀ xs ys : List RawAvailRow,
      clean2Rows toNum (xs ++ ys) =
        clean2Rows toNum xs ++ clean2Rows toNum ys) := by
  refine ⟨?_, ?_, ?_, ?_, ?_⟩
  · intro r c h
    cases hp : r.packetLoss.bind toNum with
    | none => simp [clean2Row, hp] at h
    | some p =>
      cases ha : r.availability.bind toNum with
      | none => simp [clean2Row, hp, ha] at h
      | some a =>
        cases hl : r.latency.bind toNum with
        | none => simp [clean2Row, hp, ha, hl] at h
        | some l =>
          simp only [clean2Row, hp, ha, hl, Option.some.injEq] at h
          subst h
          exact ⟨rfl, rfl, rfl, rfl, rfl⟩
  · intro r h
    rcases h with h | h | h
    · cases hp : r.packetLoss.bind toNum <;> simp [clean2Row, hp, h]
    · cases hp : r.packetLoss.bind toNum <;>
        cases ha : r.availability.bind toNum <;>
          simp [clean2Row, hp, ha, h]
    · simp [clean2Row, h]
  · intro c
    simp [data2_clean, List.mem_filterMap]
  · intro five rest h5
    show (List.drop 5 (five ++ rest)).filterMap (clean2Row toNum) = _
    rw [← h5, List.drop_left]
    rfl
  · intro xs ys
    simp [clean2Rows, List.filterMap_append]

/-- Witness for C6: a concrete row whose Availability cell fails the
numeric coercion is dropped by the cleaner. -/
theorem availability_cleaner_spec_witness :
    clean2Row (fun s => if s = "7" then some 7 else none)
      ⟨some "n", some "10.0.0.1", some "bad", some "7", some "7"⟩ =
      none :=
  (availability_cleaner_spec (fun s => if s = "7" then some 7 else none)
    []).2.1 ⟨some "n", some "10.0.0.1", some "bad", some "7", some "7"⟩
    (Or.inl rfl)

/-- The running maximum of `maxByCtime` is one of the candidates. -/
theorem maxByCtime_mem (m : DirEntry) (ms : List DirEntry) :
    maxByCtime m ms ∈ m :: ms := by
  induction ms generalizing m with
  | nil => simp [maxByCtime]
  | cons f fs ih =>
    have hstep : maxByCtime m (f :: fs) =
        maxByCtime (if m.ctime < f.ctime then f else m) fs := rfl
    rw [hstep]
    rcases List.mem_cons.mp (ih (if m.ctime < f.ctime then f else m)) with
      h | h
    · rw [h]
      by_cases hc : m.ctime < f.ctime
      · rw [if_pos hc]
        exact List.mem_cons_of_mem _ (List.mem_cons_self _ _)
      · rw [if_neg hc]
        exact List.mem_cons_self _ _
    · exact List.mem_cons_of_mem _ (List.mem_cons_of_mem _ h)

/-- The running maximum of `maxByCtime` dominates every candidate. -/
theorem maxByCtime_ge (m : DirEntry) (ms : List DirEntry) :
    ∀ g ∈ m :: ms, g.ctime ≤ (maxByCtime m ms).ctime := by
  induction ms generalizing m with
  | nil =>
    intro g hg
    rcases List.mem_cons.mp hg with h | h
    · subst h
      exact Nat.le.refl
    · simp at h
  | cons f fs ih =>
    intro g hg
    have hstep : maxByCtime m (f :: fs) =
        maxByCtime (if m.ctime < f.ctime then f else m) fs := rfl
    rw [hstep]
    rcases List.mem_cons.mp hg with h | hg2
    · subst h
      refine Nat.le_trans ?_ (ih _ _ (List.mem_cons_self _ _))
      by_cases hc : g.ctime < f.ctime
      · rw [if_pos hc]
        exact Nat.le_of_lt hc
      · rw [if_neg hc]
    · rcases List.mem_cons.mp hg2 with h | h
      · subst h
        refine Nat.le_trans ?_ (ih _ _ (List.mem_cons_self _ _))
        by_cases hc : m.ctime < g.ctime
        · rw [if_pos hc]
        · rw [if_neg hc]
          exact Nat.le_of_not_lt hc
      · exact ih _ g (List.mem_cons_of_mem _ h)

/-- C7: when some directory entry matches, `get_latest_file` returns
the joined path of a matching entry whose creation time dominates every
matching entry; when no entry matches, it fails with the
FileNotFoundError message and returns no path. -/
theorem get_latest_file_spec (path : String) (rmatch : String → Bool)
    (files : List DirEntry) :
    ((∃ f ∈ files, rmatch f.name = true) →
      ∃ f ∈ files, rmatch f.name = true ∧
        (∀ g ∈ files, rmatch g.name = true → g.ctime ≤ f.ctime) ∧
        get_latest_file path rmatch files =
          .ok (path ++ "/" ++ f.name)) ∧
    ((∀ f ∈ files, ¬ rmatch f.name = true) →
      get_latest_file path rmatch files =
        .error "No files matching the pattern were found.") := by
  constructor
  · rintro ⟨f0, hf0, hm0⟩
    cases hfl : files.filter (fun f => rmatch f.name) with
    | nil =>
      exact absurd hm0 (List.filter_eq_nil_iff.mp hfl f0 hf0)
    | cons m ms =>
      have hmem : maxByCtime m ms ∈ files.filter (fun f => rmatch f.name) := by
        rw [hfl]; exact maxByCtime_mem m ms
      refine ⟨maxByCtime m ms, (List.mem_filter.mp hmem).1,
        (List.mem_filter.mp hmem).2, ?_, ?_⟩
      · intro g hg hgm
        have hgf : g ∈ files.filter (fun f => rmatch f.name) :=
          List.mem_filter.mpr ⟨hg, hgm⟩
        rw [hfl] at hgf
        exact maxByCtime_ge m ms g hgf
      · unfold get_latest_file
        rw [hfl]
  · intro h
    unfold get_latest_file
    rw [List.filter_eq_nil_iff.mpr h]

/-- A concrete directory listing for the locator witness. -/
def witnessFiles : List DirEntry := [⟨"f1", 5⟩, ⟨"g", 9⟩, ⟨"f2", 7⟩]

/-- A concrete name predicate (matching f1 and f2) for the witness. -/
def witnessMatch : String → Bool := fun n => n = "f1" || n = "f2"

/-- Witness for C7: on a concrete listing where two names match, the
locator returns the matching entry with the greatest creation time. -/
theorem get_latest_file_spec_witness :
    ∃ f ∈ witnessFiles, witnessMatch f.name = true ∧
      (∀ g ∈ witnessFiles, witnessMatch g.name = true →
        g.ctime ≤ f.ctime) ∧
      get_latest_file "/dl" witnessMatch witnessFiles =
        .ok ("/dl" ++ "/" ++ f.name) :=
  (get_latest_file_spec "/dl" witnessMatch witnessFiles).1
    ⟨⟨"f1", 5⟩, by decide, by decide⟩

/-- The concrete summary table of the spec's filter-correctness
scenario. -/
def exampleSummaries : List DowntimeSummary :=
  [⟨"A", 2⟩, ⟨"B", 4⟩, ⟨"C", 6⟩, ⟨"D", 11⟩]

/-- C3: each recognized bucket value keeps exactly the rows satisfying
its predicate, an unrecognized value passes every row through
unchanged, and the spec's concrete four-row scenario filters as
stated. -/
theorem bucket_filter_spec (l : List DowntimeSummary) (v : String)
    (hv : v ∉ (["1-3", "4-5", ">5", ">10"] : List String)) :
    bucketFilter "1-3" l = l.filter (fun s => s.downtimeCount ≤ 3) ∧
    bucketFilter "4-5" l =
      l.filter (fun s => 3 < s.downtimeCount && s.downtimeCount ≤ 5) ∧
    bucketFilter ">5" l = l.filter (fun s => 5 < s.downtimeCount) ∧
    bucketFilter ">10" l = l.filter (fun s => 10 < s.downtimeCount) ∧
    bucketFilter v l = l ∧
    filter_data (some 1) none none "1-3" exampleSummaries =
      .ok [⟨"A", 2⟩] ∧
    filter_data (some 1) none none "4-5" exampleSummaries =
      .ok [⟨"B", 4⟩] ∧
    filter_data (some 1) none none ">5" exampleSummaries =
      .ok [⟨"C", 6⟩, ⟨"D", 11⟩] ∧
    filter_data (some 1) none none ">10" exampleSummaries =
      .ok [⟨"D", 11⟩] := by
  simp only [List.mem_cons, List.not_mem_nil, or_false, not_or] at hv
  obtain ⟨h1, h2, h3, h4⟩ := hv
  refine ⟨rfl, rfl, rfl, rfl, ?_, rfl, rfl, rfl, rfl⟩
  simp [bucketFilter, h1, h2, h3, h4]

/-- Witness for C3: an unrecognized bucket value passes a concrete
table through unchanged. -/
theorem bucket_filter_spec_witness :
    bucketFilter "other" exampleSummaries = exampleSummaries :=
  (bucket_filter_spec exampleSummaries "other" (by decide)).2.2.2.2.1

/-- C4: with a click recorded and both dates provided, the date step
selects the Alarm Time column of the summary frame; that frame has no
such column (its schema is Node Alias and Downtime Count only), so the
callback raises a KeyError and never applies a date restriction. -/
theorem date_filter_errors (table : List DowntimeSummary)
    (k sd ed : Nat) (v : String) :
    filter_data (some k) (some sd) (some ed) v table =
      .error "KeyError: Alarm Time" ∧
    (∀ r : DowntimeSummary, getCol r "Alarm Time" = none) ∧
    "Alarm Time" ∉ summaryColumns :=
  ⟨rfl, fun _ => rfl, by decide⟩

/-- C10: with no click count recorded the callback returns the full
table, whatever the date range and bucket selections hold. -/
theorem no_click_returns_full_table (start_date end_date : Option Nat)
    (v : String) (table : List DowntimeSummary) :
    filter_data none start_date end_date v table = .ok table := rfl

/-- C8: the callback never mutates the shared aggregated table: the
module state after any invocation is the input state, and the returned
view is computed functionally from it. -/
theorem filter_data_no_mutation (st : AppState) (n : Option Nat)
    (sd ed : Option Nat) (v : String) :
    (filter_data_app st n sd ed v).2 = st ∧
    (filter_data_app st n sd ed v).1 =
      filter_data n sd ed v st.downtime_count := by
  cases n <;> cases sd <;> cases ed <;> exact ⟨rfl, rfl⟩

/-- Every row a single alarm contributes to the merge carries that
alarm. -/
theorem joinOne_alarm (a : CleanedAlarmRecord)
    (avail : List CleanedAvailabilityRecord) :
    ∀ j ∈ joinOne a avail, j.alarm = a := by
  intro j hj
  unfold joinOne at hj
  split at hj
  · rw [List.mem_singleton.mp hj]
  · obtain ⟨v, _, hv⟩ := List.mem_map.mp hj
    rw [← hv]

/-- A single alarm contributes one merge row per matching availability
row, or one unmatched row. -/
theorem joinOne_length (a : CleanedAlarmRecord)
    (avail : List CleanedAvailabilityRecord) :
    (joinOne a avail).length =
      max 1 ((avail.filter fun v => v.ipAddress == a.ipAddress).length) := by
  unfold joinOne
  cases h : avail.filter fun v => v.ipAddress == a.ipAddress with
  | nil => rfl
  | cons m ms =>
    simp only [List.length_map, List.length_cons]
    omega

/-- An alarm with no matching IP address contributes exactly its
unmatched row. -/
theorem joinOne_unmatched (a : CleanedAlarmRecord)
    (avail : List CleanedAvailabilityRecord)
    (h : avail.filter (fun v => v.ipAddress == a.ipAddress) = []) :
    joinOne a avail = [⟨a, none⟩] := by
  unfold joinOne
  rw [h]

/-- On availability data whose IP addresses are pairwise distinct, at
most one row matches any given IP address. -/
theorem filter_ip_length_le_one (avail : List CleanedAvailabilityRecord)
    (hnd : (avail.map fun v => v.ipAddress).Nodup) (x : Option String) :
    (avail.filter fun v => v.ipAddress == x).length ≤ 1 := by
  induction avail with
  | nil => exact Nat.zero_le 1
  | cons v vs ih =>
    simp only [List.map_cons, List.nodup_cons] at hnd
    by_cases hb : v.ipAddress == x
    · have hrest : vs.filter (fun u => u.ipAddress == x) = [] := by
        rw [List.filter_eq_nil_iff]
        intro u hu hux
        have hux2 : u.ipAddress = x := beq_iff_eq.mp hux
        have hvx : v.ipAddress = x := beq_iff_eq.mp hb
        exact hnd.1 (hvx ▸ hux2 ▸ List.mem_map.mpr ⟨u, hu, rfl⟩)
      simp only [List.filter_cons, hb, if_true, hrest, List.length_cons,
        List.length_nil]
      omega
    · simp only [List.filter_cons, hb, Bool.false_eq_true, if_false]
      exact ih hnd.2

/-- C2 (amended): the left merge keeps every alarm row — once per
matching availability row, with a fan-out when the same IP address
occurs several times in the availability data, and exactly once with no
availability attached when no IP address matches; every merge row
carries one of the alarm records; and when the availability IP
addresses are pairwise distinct every alarm record is retained exactly
once. -/
theorem left_merge_spec (alarms : List CleanedAlarmRecord)
    (avail : List CleanedAvailabilityRecord) :
    ((merged_df alarms avail).length =
      (alarms.map fun a =>
        max 1 ((avail.filter fun v => v.ipAddress == a.ipAddress).length)).sum) ∧
    (∀ j ∈ merged_df alarms avail, j.alarm ∈ alarms) ∧
    (∀ a ∈ alarms,
      avail.filter (fun v => v.ipAddress == a.ipAddress) = [] →
      (⟨a, none⟩ : JoinedRecord) ∈ merged_df alarms avail) ∧
    ((avail.map fun v => v.ipAddress).Nodup →
      (merged_df alarms avail).length = alarms.length) := by
  refine ⟨?_, ?_, ?_, ?_⟩
  · induction alarms with
    | nil => rfl
    | cons a as ih =>
      simp only [merged_df, List.length_append, List.map_cons,
        List.sum_cons, joinOne_length, ih]
  · induction alarms with
    | nil => intro j hj; simp [merged_df] at hj
    | cons a as ih =>
      intro j hj
      rcases List.mem_append.mp hj with h | h
      · exact (joinOne_alarm a avail j h) ▸ List.mem_cons_self _ _
      · exact List.mem_cons_of_mem _ (ih j h)
  · induction alarms with
    | nil => intro a ha; simp at ha
    | cons b bs ih =>
      intro a ha hflt
      rcases List.mem_cons.mp ha with h | h
      · subst h
        exact List.mem_append.mpr
          (Or.inl (by rw [joinOne_unmatched a avail hflt]; exact
            List.mem_singleton.mpr rfl))
      · exact List.mem_append.mpr (Or.inr (ih a h hflt))
  · intro hnd
    induction alarms with
    | nil => rfl
    | cons a as ih =>
      have h1 : (joinOne a avail).length = 1 := by
        rw [joinOne_length]
        have := filter_ip_length_le_one avail hnd a.ipAddress
        omega
      simp only [merged_df, List.length_append, h1, ih, List.length_cons]
      omega

/-- A concrete alarm record for the merge counterexample. -/
def cAlarm : CleanedAlarmRecord := ⟨some "10.0.0.1", "N1", none, 1⟩

/-- A first availability row for IP 10.0.0.1. -/
def cAvail1 : CleanedAvailabilityRecord :=
  ⟨some "N1", some "10.0.0.1", 99, 4, 0⟩

/-- A second availability row for the same IP 10.0.0.1. -/
def cAvail2 : CleanedAvailabilityRecord :=
  ⟨some "N1", some "10.0.0.1", 97, 4, 0⟩

/-- Counterexample to C2 as stated: with two availability rows sharing
IP 10.0.0.1, the single alarm on that IP fans out into two merge rows,
so it is not retained exactly once. -/
theorem left_merge_fanout_counterexample :
    (merged_df [cAlarm] [cAvail1, cAvail2]).length = 2 ∧
    ¬ (merged_df [cAlarm] [cAvail1, cAvail2]).length =
        ([cAlarm] : List CleanedAlarmRecord).length := by
  exact ⟨rfl, by decide⟩

/-- Witness for C2 (amended): a concrete unmatched alarm is kept with
no availability, and with distinct availability IP addresses the merge
length equals the alarm count. -/
theorem left_merge_spec_witness :
    (⟨cAlarm, none⟩ : JoinedRecord) ∈ merged_df [cAlarm] [] ∧
    (merged_df [cAlarm] [cAvail1]).length =
      ([cAlarm] : List CleanedAlarmRecord).length :=
  ⟨(left_merge_spec [cAlarm] []).2.2.1 cAlarm (List.mem_singleton.mpr rfl)
      rfl,
    (left_merge_spec [cAlarm] [cAvail1]).2.2.2 (by decide)⟩

/-- The Node Alias column of the summary table is the sorted
deduplication of the Node Aliases of the joined rows. -/
theorem downtime_count_keys (merged : List JoinedRecord) :
    (downtime_count merged).map (fun s => s.nodeAlias) =
      ((merged.map fun j => j.alarm.nodeAlias).dedup).insertionSort
        (· ≤ ·) := by
  unfold downtime_count
  rw [List.map_map]
  exact List.map_id _

/-- C1: the aggregation yields exactly one summary row per distinct
Node Alias occurring among the joined rows, and each row's Downtime
Count is the number of distinct Alarm Time values among the joined
rows of that node (duplicated timestamps for a node count once). -/
theorem downtime_aggregation_spec (alarms : List CleanedAlarmRecord)
    (avail : List CleanedAvailabilityRecord) :
    ((downtime_count (merged_df alarms avail)).map
      (fun s => s.nodeAlias)).Nodup ∧
    (∀ k : String,
      (∃ s ∈ downtime_count (merged_df alarms avail), s.nodeAlias = k) ↔
      (∃ j ∈ merged_df alarms avail, j.alarm.nodeAlias = k)) ∧
    (∀ s ∈ downtime_count (merged_df alarms avail),
      s.downtimeCount =
        (((merged_df alarms avail).filter fun j =>
            j.alarm.nodeAlias == s.nodeAlias).map fun j =>
            j.alarm.alarmTime).toFinset.card) := by
  refine ⟨?_, ?_, ?_⟩
  · rw [downtime_count_keys]
    exact ((List.perm_insertionSort _ _).nodup_iff).mpr
      (List.nodup_dedup _)
  · intro k
    rw [show (∃ s ∈ downtime_count (merged_df alarms avail),
        s.nodeAlias = k) ↔
        k ∈ (downtime_count (merged_df alarms avail)).map
          (fun s => s.nodeAlias) from List.mem_map.symm]
    rw [downtime_count_keys, (List.perm_insertionSort _ _).mem_iff,
      List.mem_dedup, List.mem_map]
  · intro s hs
    obtain ⟨k, hk, hks⟩ := List.mem_map.mp hs
    rw [← hks]
    show (groupTimes (merged_df alarms avail) k).dedup.length = _
    rw [← List.card_toFinset]
    rfl

/-- Concrete alarms for the aggregation witnesses: one node, alarm
times 10, 10 and 20. -/
def wAlarms : List CleanedAlarmRecord :=
  [⟨some "ip1", "N1", none, 10⟩, ⟨some "ip2", "N1", none, 10⟩,
    ⟨some "ip3", "N1", none, 20⟩]

/-- Witness for C1: on three alarms of one node with times 10, 10, 20,
the summary row for that node counts 2 distinct alarm times. -/
theorem downtime_aggregation_spec_witness :
    (⟨"N1", 2⟩ : DowntimeSummary).downtimeCount =
      (((merged_df wAlarms []).filter fun j =>
          j.alarm.nodeAlias == "N1").map fun j =>
          j.alarm.alarmTime).toFinset.card :=
  (downtime_aggregation_spec wAlarms []).2.2 ⟨"N1", 2⟩ (by decide)

/-- Every summary row groups at least one joined row, whose Alarm Time
makes the distinct count positive. -/
theorem downtime_count_pos_of_mem (merged : List JoinedRecord) :
    ∀ s ∈ downtime_count merged, 0 < s.downtimeCount := by
  intro s hs
  obtain ⟨k, hk, hks⟩ := List.mem_map.mp hs
  have hk2 : k ∈ merged.map fun j => j.alarm.nodeAlias :=
    List.mem_dedup.mp ((List.perm_insertionSort _ _).mem_iff.mp hk)
  obtain ⟨j, hj, hjk⟩ := List.mem_map.mp hk2
  have hjf : j ∈ merged.filter fun j => j.alarm.nodeAlias == k :=
    List.mem_filter.mpr ⟨hj, beq_iff_eq.mpr hjk⟩
  have ht : j.alarm.alarmTime ∈ groupTimes merged k :=
    List.mem_map.mpr ⟨j, hjf, rfl⟩
  have ht2 : j.alarm.alarmTime ∈ (groupTimes merged k).dedup :=
    List.mem_dedup.mpr ht
  rw [← hks]
  exact List.length_pos_of_mem ht2

/-- C9: over any cleaned inputs, every row of the aggregated summary
has a strictly positive Downtime Count: each Node Alias group stems
from at least one alarm record carrying a valid Alarm Time. -/
theorem summary_counts_positive (parse : String → Option Nat)
    (toNum : String → Option Int) (rows1 : List RawAlarmRow)
    (rows2 : List RawAvailRow) :
    ∀ s ∈ downtime_count
        (merged_df (data1_clean parse rows1) (data2_clean toNum rows2)),
      0 < s.downtimeCount :=
  fun s hs => downtime_count_pos_of_mem _ s hs

/-- Witness for C9: a concrete one-row alarm file yields the summary
row for its node with the positive count 1. -/
theorem summary_counts_positive_witness :
    0 < (⟨"N1", 1⟩ : DowntimeSummary).downtimeCount :=
  summary_counts_positive (fun ts => if ts = "t" then some 10 else none)
    (fun _ => none) [⟨some "ip", some "N1", none, some "t"⟩] []
    ⟨"N1", 1⟩ (by decide)

end Nodeboard
